import Mathlib

/-!
Shallow embedding of the amethyst renderer's pipeline machinery:

* `amethyst_renderer/src/pipe/stage.rs`  (`Stage`, `StageBuilder`)
* `amethyst_renderer/src/pipe/pass.rs`   (`Pass`, `PassBuilder`)
* `amethyst_renderer/src/pass/flat.rs`   (`DrawFlat` model-pass closure)
* `amethyst_renderer/src/pass/shaded.rs` (`DrawShaded` model-pass closure)
* `src/renderer/src/pass/clear.rs`       (older snapshot: `ClearTarget`)

Rust `f32` scalars are represented by `ℚ`; external matrix computations
(cgmath) are represented symbolically so distinct constructions stay
distinguishable.  `usize` subtraction is modelled checked (an `Option`, with
`none` standing for the arithmetic-underflow panic of a debug build).
Panics (assertion failures, out-of-bounds splits) are modelled by
`Except.error`, carrying the pass-invocation trace recorded before the panic.
-/

namespace AmethystRenderer

/-- Checked `usize` subtraction: Rust `a - b` on `usize` panics when `b > a`
(arithmetic underflow); `none` models that panic. -/
def usizeSub (a b : ℕ) : Option ℕ :=
  if b ≤ a then some (a - b) else none

/-- Rust `usize as i32` cast, wrapping to the `i32` range. -/
def i32_of_usize (n : ℕ) : ℤ :=
  ((n % 2 ^ 32 : ℕ) : ℤ) - (if n % 2 ^ 32 < 2 ^ 31 then 0 else 2 ^ 32)

/-- Modelled from the spec: `Scene::par_chunks_models(n)` lives in the missing
`scene.rs`.  Spec section 4.4 and section 6 describe it as partitioning the
visible-model sequence into `n` contiguous chunks (`partition_models(n) -> n
chunks of Model`).  `splitInto n ms` produces exactly `n` contiguous chunks
whose concatenation is `ms` (the first chunk takes the ceiling share). -/
def splitInto {α : Type} : ℕ → List α → List (List α)
  | 0, _ => []
  | n + 1, ms =>
    if n = 0 then [ms]
    else
      ms.take ((ms.length + n) / (n + 1)) ::
        splitInto n (ms.drop ((ms.length + n) / (n + 1)))

/-- A 3-component `f32` vector (cgmath `Point3` / `Vector3`). -/
structure Vec3 where
  x : ℚ
  y : ℚ
  z : ℚ
deriving DecidableEq, Repr

/-- Componentwise addition, used for `cam.eye + cam.forward`. -/
def Vec3.add (a b : Vec3) : Vec3 :=
  ⟨a.x + b.x, a.y + b.y, a.z + b.z⟩

/-- Conversion to a `[f32; 3]` payload. -/
def Vec3.toList3 (v : Vec3) : List ℚ :=
  [v.x, v.y, v.z]

/-- Conversion of a `[f32; 3]` vector to a padded `[f32; 4]`
(`fn pad(x: [f32; 3]) -> [f32; 4]` in shaded.rs appends `1.0`). -/
def Vec3.pad (v : Vec3) : List ℚ :=
  [v.x, v.y, v.z, 1]

/-- A 4x4 `f32` matrix (`[[f32; 4]; 4]`).  cgmath operations from outside the
repository are kept symbolic: `ident` is `Matrix4::one()`, `lookAt` is
`Matrix4::look_at(eye, center, up)`, and `raw` holds arbitrary matrix data
(camera projections, model world transforms). -/
inductive Mat4 where
  | ident : Mat4
  | lookAt (eye center up : Vec3) : Mat4
  | raw (rows : List (List ℚ)) : Mat4
deriving DecidableEq, Repr

/-- Modelled from the spec: `Camera` lives in the missing `cam.rs`.  The pass
closures read `cam.proj`, `cam.eye`, `cam.forward` and `cam.up`. -/
structure Camera where
  proj : Mat4
  eye : Vec3
  forward : Vec3
  up : Vec3
deriving DecidableEq, Repr

/-- Modelled from the spec: directional light from the missing `light.rs`
(spec section 6: `Light{Directional|Point}`); shaded.rs reads `direction` and
`color`. -/
structure DirectionalLight where
  direction : Vec3
  color : Vec3
deriving DecidableEq, Repr

/-- Modelled from the spec: point light from the missing `light.rs`;
shaded.rs reads `center`, `color` and `intensity`. -/
structure PointLight where
  center : Vec3
  color : Vec3
  intensity : ℚ
deriving DecidableEq, Repr

/-- Modelled from the spec: the light sum type from the missing `light.rs`. -/
inductive Light where
  | directional (d : DirectionalLight) : Light
  | point (p : PointLight) : Light
deriving DecidableEq, Repr

/-- Modelled from the spec: a material channel texture; `view()` yields the
texture view handle, represented by a numeric id. -/
structure Material where
  albedo : ℕ
  emission : ℕ
  normal : ℕ
  metallic : ℕ
  roughness : ℕ
  ambient_occlusion : ℕ
  caveat : ℕ
deriving DecidableEq, Repr

/-- Modelled from the spec: a mesh whose `geometry()` yields the vertex
buffer handle and the draw slice, represented by numeric ids. -/
structure Mesh where
  vbuf : ℕ
  slice : ℕ
deriving DecidableEq, Repr

/-- Returns the vertex buffer and slice, as `Mesh::geometry()` does. -/
def Mesh.geometry (m : Mesh) : ℕ × ℕ :=
  (m.vbuf, m.slice)

/-- Modelled from the spec: a renderable model (mesh + material + world
transform), as read by the model-pass closures (`model.mesh`,
`model.material`, `model.pos`). -/
structure Model where
  mesh : Mesh
  material : Material
  pos : Mat4
deriving DecidableEq, Repr

/-- Modelled from the spec: the per-frame `Scene` (missing `scene.rs`),
exposing the active camera, the lights and the visible models (spec
section 6). -/
structure Scene where
  camera : Option Camera
  lights : List Light
  models : List Model
deriving DecidableEq, Repr

/-- Modelled from the spec: `Scene::active_camera()`. -/
def Scene.active_camera (s : Scene) : Option Camera :=
  s.camera

/-- Modelled from the spec: `Scene::par_chunks_models(n)` partitions the
visible models into `n` contiguous chunks (spec sections 4.4 and 6); the
parallel iterator's `len()` is the chunk count. -/
def Scene.par_chunks_models (s : Scene) (n : ℕ) : List (List Model) :=
  splitInto n s.models

/-- The `VertexArgs` constant-buffer layout declared identically in flat.rs
and shaded.rs: projection, view and model matrices. -/
structure VertexArgs where
  proj : Mat4
  view : Mat4
  model : Mat4
deriving DecidableEq, Repr

/-- The `FragmentArgs` constant-buffer layout of shaded.rs. -/
structure FragmentArgs where
  point_light_count : ℤ
  directional_light_count : ℤ
deriving DecidableEq, Repr

/-- The std140 `PointLight` upload layout of shaded.rs ([f32;4] position,
[f32;4] color, intensity, [f32;3] padding). -/
structure SPointLight where
  position : List ℚ
  color : List ℚ
  intensity : ℚ
  pad : List ℚ
deriving DecidableEq, Repr

/-- The std140 `DirectionalLight` upload layout of shaded.rs. -/
structure SDirLight where
  direction : List ℚ
  color : List ℚ
deriving DecidableEq, Repr

/-- gfx `UniformValue` as used by shaded.rs (`F32Vector3`). -/
inductive UniformValue where
  | F32Vector3 (v : List ℚ) : UniformValue
deriving DecidableEq, Repr

/-- Typed payload of `update_constant_buffer` calls in flat.rs/shaded.rs. -/
inductive UniformData where
  | vertex (va : VertexArgs) : UniformData
  | fragment (fa : FragmentArgs) : UniformData
deriving DecidableEq, Repr

/-- Typed payload of `update_buffer` calls in shaded.rs. -/
inductive BufferData where
  | points (ls : List SPointLight) : BufferData
  | directionals (ls : List SDirLight) : BufferData
deriving DecidableEq, Repr

/-- The per-draw binding set (`effect.pso_data` clone plus pushes), with
handles represented by numeric ids. -/
structure PsoData where
  const_bufs : List ℕ
  globals : List UniformValue
  samplers : List ℕ
  textures : List ℕ
  vertex_bufs : List ℕ
  out_colors : List ℕ
deriving DecidableEq, Repr

/-- A command recorded into an encoder by the pass closures. -/
inductive Cmd where
  | update_constant_buffer (buf : ℕ) (data : UniformData) : Cmd
  | update_buffer (buf : ℕ) (data : BufferData) (offset : ℕ) : Cmd
  | draw (slice : ℕ) (pso : ℕ) (data : PsoData) : Cmd
deriving DecidableEq, Repr

/-- An encoder: a command-recording handle; its state is the list of
recorded commands. -/
structure Encoder where
  commands : List Cmd
deriving DecidableEq, Repr

/-- Records an `update_constant_buffer` command. -/
def Encoder.update_constant_buffer (e : Encoder) (buf : ℕ) (data : UniformData) : Encoder :=
  ⟨e.commands ++ [Cmd.update_constant_buffer buf data]⟩

/-- Records an `update_buffer` command. -/
def Encoder.update_buffer (e : Encoder) (buf : ℕ) (data : BufferData) (offset : ℕ) : Encoder :=
  ⟨e.commands ++ [Cmd.update_buffer buf data offset]⟩

/-- Records a `draw` command. -/
def Encoder.draw (e : Encoder) (slice : ℕ) (pso : ℕ) (data : PsoData) : Encoder :=
  ⟨e.commands ++ [Cmd.draw slice pso data]⟩

/-- Modelled from the spec: a color buffer of a `Target` (missing
`pipe/mod.rs`); the closures read its `as_output` handle. -/
structure ColorBuf where
  as_output : ℕ
deriving DecidableEq, Repr

/-- Modelled from the spec: a render `Target` (missing `pipe/mod.rs`): one or
more color buffers and an optional depth buffer (spec section 3). -/
structure Target where
  color_bufs : List ColorBuf
  depth_buf : Option ℕ
deriving DecidableEq, Repr

/-- Modelled from the spec: `Target::color_buf(i)` looks up the i-th color
buffer. -/
def Target.color_buf (t : Target) (i : ℕ) : Option ColorBuf :=
  t.color_bufs.get? i

/-- Modelled from the spec: a finalized `Effect` (missing `pipe/mod.rs`):
compiled program handle, static binding set, and named constant buffers and
samplers (total maps from names to handles, as built effects always contain
the names their pass indexes). -/
structure Effect where
  pso : ℕ
  pso_data : PsoData
  const_bufs : String → ℕ
  samplers : String → ℕ

/-- The error type of the missing `error.rs`; `StageBuilder::finish` returns
`Error::NoSuchTarget(name)` for an unknown target name. -/
inductive Error where
  | NoSuchTarget (name : String) : Error
  | BindingError (symbol : String) : Error
deriving DecidableEq, Repr

/-- Modelled from the spec: an `EffectBuilder` (missing `pipe/mod.rs`); its
`finish(factory, target)` compiles and validates the effect, returning the
effect or a binding error (spec section 4.1).  The outcome is carried as
data. -/
structure EffectBuilder where
  result : Except Error Effect

/-- Modelled from the spec: `EffectBuilder::finish` against a device factory
and an output target. -/
def EffectBuilder.finish (eb : EffectBuilder) (_fac : Unit) (_out : Target) : Except Error Effect :=
  eb.result

/-- The opaque device factory handle threaded through `finish` calls. -/
abbrev Factory := Unit

/-- Modelled from the spec: the target registry, a map from names to targets
(spec section 3); represented as an association list. -/
def Targets := List (String × Target)

/-- Registry lookup, as `targets.get(&name)`. -/
def Targets.get (ts : Targets) (name : String) : Option Target :=
  List.lookup name ts

/-- `pub type BasicFn = Arc<Fn(&mut Encoder, &Target) + Send + Sync>`. -/
def BasicFn := Encoder → Target → Encoder

/-- `pub type SimpleFn = Arc<Fn(&mut Encoder, &Target, &Effect, &Scene)>`. -/
def SimpleFn := Encoder → Target → Effect → Scene → Encoder

/-- `pub type ModelFn = Arc<Fn(&mut Encoder, &Target, &Effect, &Scene, &Model)>`. -/
def ModelFn := Encoder → Target → Effect → Scene → Model → Encoder

/-- The three pass variants of pipe/pass.rs: `Basic(BasicPass)` wraps a
closure; `Simple(SimplePass)` and `Model(ModelPass)` wrap a closure plus the
effect it was built with. -/
inductive Pass where
  | basic (f : BasicFn) : Pass
  | simple (f : SimpleFn) (effect : Effect) : Pass
  | model (f : ModelFn) (effect : Effect) : Pass

/-- `BasicPass::apply`: `(self.0)(enc, out)`. -/
def Pass.applyBasic (f : BasicFn) (enc : Encoder) (out : Target) : Encoder :=
  f enc out

/-- `SimplePass::apply`: `(self.0)(enc, out, &self.1, scene)`. -/
def Pass.applySimple (f : SimpleFn) (effect : Effect) (enc : Encoder) (out : Target)
    (scene : Scene) : Encoder :=
  f enc out effect scene

/-- `ModelPass::apply`: `(self.0)(enc, out, &self.1, scene, model)`. -/
def Pass.applyModel (f : ModelFn) (effect : Effect) (enc : Encoder) (out : Target)
    (scene : Scene) (model : Model) : Encoder :=
  f enc out effect scene model

/-- The weight a pass contributes in `Stage::encoders_required`:
`Basic => 0, Simple => 0, Model => 1`. -/
def passWeight : Pass → ℕ
  | .basic _ => 0
  | .simple _ _ => 0
  | .model _ _ => 1

/-- A stage: enabled flag, ordered passes, bound target (stage.rs). -/
structure Stage where
  enabled : Bool
  passes : List Pass
  target : Target

/-- `Stage::toggle_enabled`: `self.enabled = !self.enabled`. -/
def Stage.toggle_enabled (s : Stage) : Stage :=
  { s with enabled := !s.enabled }

/-- `Stage::is_enabled`. -/
def Stage.is_enabled (s : Stage) : Bool :=
  s.enabled

/-- `Stage::encoders_required(jobs_count)`:
`passes.map(weight).sum * (jobs_count - 1) + 1`, with the `usize`
subtraction checked (`none` is the underflow panic of a debug build). -/
def Stage.encoders_required (s : Stage) (jobs_count : ℕ) : Option ℕ :=
  (usizeSub jobs_count 1).map (fun j => (s.passes.map passWeight).sum * j + 1)

/-- Boolean test for the `Model` pass variant. -/
def isModelPass : Pass → Bool
  | .model _ _ => true
  | _ => false

/-- The number of `Model` passes a stage holds. -/
def Stage.model_pass_count (s : Stage) : ℕ :=
  (s.passes.filter isModelPass).length

/-- One recorded pass invocation: which pass (by position in the stage's
pass list) ran, and for a model pass which model it drew.  The trace makes
the sequence of closure invocations performed by `Stage::apply`
observable. -/
inductive Event where
  | basic (passIdx : ℕ) : Event
  | simple (passIdx : ℕ) : Event
  | draw (passIdx : ℕ) (m : Model) : Event
deriving DecidableEq, Repr

/-- Prepends one pass's retired encoders and events onto the outcome of the
remaining passes; a panic (`error`) keeps only the events recorded before
it. -/
def consStep (retired : List Encoder) (evs : List Event) :
    Except (List Event) (List Encoder × List Encoder × List Event) →
      Except (List Event) (List Encoder × List Encoder × List Event) :=
  fun r =>
    match r with
    | .ok (ret, rem, tr) => .ok (retired ++ ret, rem, evs ++ tr)
    | .error tr => .error (evs ++ tr)

/-- The pass loop of `Stage::apply` (stage.rs lines 58-85).  `encs` is the
current encoder slice; `i` is the position of the head pass in the stage's
pass list.  Basic and Simple passes record into `encs[0]` (panic if the
slice is empty).  A Model pass retrieves the model chunks, asserts
`encoders.len() >= chunks.len()`, splits off the first `jobs_count - 1`
encoders (`split_at_mut`, with the `usize` subtraction checked and the
split bound checked), zips the chunks with the split-off encoders — rayon's
`zip` stops at the shorter side — runs the pass over each zipped chunk on
its dedicated encoder, and continues with the leftover encoders.  The
result is `(retired encoders in final state, remaining slice, invocation
trace)`; `error tr` models a panic after recording trace `tr`. -/
def applyPasses (target : Target) (scene : Scene) (jobs_count : ℕ) :
    List Pass → ℕ → List Encoder →
      Except (List Event) (List Encoder × List Encoder × List Event)
  | [], _, encs => .ok ([], encs, [])
  | .basic f :: ps, i, encs =>
    match encs with
    | [] => .error []
    | e :: rest =>
      consStep [] [Event.basic i]
        (applyPasses target scene jobs_count ps (i + 1) (Pass.applyBasic f e target :: rest))
  | .simple f eff :: ps, i, encs =>
    match encs with
    | [] => .error []
    | e :: rest =>
      consStep [] [Event.simple i]
        (applyPasses target scene jobs_count ps (i + 1)
          (Pass.applySimple f eff e target scene :: rest))
  | .model f eff :: ps, i, encs =>
    let chunks := scene.par_chunks_models jobs_count
    if encs.length < chunks.length then .error []
    else
      match usizeSub jobs_count 1 with
      | none => .error []
      | some j =>
        if encs.length < j then .error []
        else
          let touse := encs.take j
          let pairs := chunks.zip touse
          let processed := pairs.map fun pr =>
            pr.1.foldl (fun acc m => Pass.applyModel f eff acc target scene m) pr.2
          let evs := (pairs.map fun pr => pr.1.map fun m => Event.draw i m).flatten
          consStep (processed ++ touse.drop pairs.length) evs
            (applyPasses target scene jobs_count ps (i + 1) (encs.drop j))

/-- `Stage::apply(encoders, jobs_count, scene)` (stage.rs lines 51-88): when
enabled, first asserts `encoders_required(jobs_count) <= encoders.len()`
(`error []` models the assertion panic, which also fires when
`encoders_required` itself underflows), then runs the pass loop; when
disabled it does nothing and hands the encoder slice back unchanged. -/
def Stage.apply (s : Stage) (encoders : List Encoder) (jobs_count : ℕ) (scene : Scene) :
    Except (List Event) (List Encoder × List Encoder × List Event) :=
  if s.enabled then
    match s.encoders_required jobs_count with
    | none => .error []
    | some r =>
      if r ≤ encoders.length then
        applyPasses s.target scene jobs_count s.passes 0 encoders
      else .error []
  else .ok ([], encoders, [])

/-- The pass-builder variants of pipe/pass.rs. -/
inductive PassBuilder where
  | basic (f : BasicFn) : PassBuilder
  | model (f : ModelFn) (eb : EffectBuilder) : PassBuilder
  | simple (f : SimpleFn) (eb : EffectBuilder) : PassBuilder

/-- `PassBuilder::prep`. -/
def PassBuilder.prep (f : BasicFn) : PassBuilder :=
  .basic f

/-- `PassBuilder::main`. -/
def PassBuilder.main (eb : EffectBuilder) (f : ModelFn) : PassBuilder :=
  .model f eb

/-- `PassBuilder::post`. -/
def PassBuilder.post (eb : EffectBuilder) (f : SimpleFn) : PassBuilder :=
  .simple f eb

/-- `PassBuilder::finish(fac, targets, out)`: a basic builder wraps its
closure; model/simple builders finish their effect builder first and fail
if it fails. -/
def PassBuilder.finish (pb : PassBuilder) (fac : Factory) (_t : Targets) (out : Target) :
    Except Error Pass :=
  match pb with
  | .basic f => .ok (.basic f)
  | .model f e =>
    match e.finish fac out with
    | .error err => .error err
    | .ok eff => .ok (.model f eff)
  | .simple f e =>
    match e.finish fac out with
    | .error err => .error err
    | .ok eff => .ok (.simple f eff)

/-- `self.passes.into_iter().map(|pb| pb.finish(..)).collect::<Result<Vec<_>>>()`:
finishes the pass builders in order, short-circuiting on the first error. -/
def collectPasses (fac : Factory) (t : Targets) (out : Target) :
    List PassBuilder → Except Error (List Pass)
  | [] => .ok []
  | pb :: pbs =>
    match pb.finish fac t out with
    | .error err => .error err
    | .ok p =>
      match collectPasses fac t out pbs with
      | .error err => .error err
      | .ok ps => .ok (p :: ps)

/-- A stage builder: enabled flag, ordered pass builders, target name
(stage.rs lines 92-97). -/
structure StageBuilder where
  enabled : Bool
  passes : List PassBuilder
  target_name : String

/-- `StageBuilder::new(target_name)`: enabled by default, no passes. -/
def StageBuilder.new (target_name : String) : StageBuilder :=
  ⟨true, [], target_name⟩

/-- `Stage::with_target(name)`. -/
def Stage.with_target (target_name : String) : StageBuilder :=
  StageBuilder.new target_name

/-- `Stage::with_backbuffer()`: targets the empty name. -/
def Stage.with_backbuffer : StageBuilder :=
  StageBuilder.new ""

/-- `StageBuilder::with_pass(pass)`: appends the pass builder
(`self.passes.push(pass.into())`). -/
def StageBuilder.with_pass (sb : StageBuilder) (pass : PassBuilder) : StageBuilder :=
  { sb with passes := sb.passes ++ [pass] }

/-- `StageBuilder::enabled(val)` (named `set_enabled` here because `enabled`
is the field accessor). -/
def StageBuilder.set_enabled (sb : StageBuilder) (val : Bool) : StageBuilder :=
  { sb with enabled := val }

/-- `StageBuilder::finish(fac, targets)` (stage.rs lines 123-137): resolves
the target name (`Error::NoSuchTarget(name)` on a miss), then finishes all
pass builders in order, then assembles the stage. -/
def StageBuilder.finish (sb : StageBuilder) (fac : Factory) (targets : Targets) :
    Except Error Stage :=
  match targets.get sb.target_name with
  | none => .error (.NoSuchTarget sb.target_name)
  | some out =>
    match collectPasses fac targets out sb.passes with
    | .error err => .error err
    | .ok ps => .ok ⟨sb.enabled, ps, out⟩

/-- The `VertexArgs` computation of the DrawFlat closure (flat.rs lines
109-117): with an active camera, the camera projection, a
`Matrix4::look_at(eye, eye + forward, up)` view and the model's world
transform; without one, identity projection and view and still the model's
own transform. -/
def flatVertexArgs (scene : Scene) (model : Model) : VertexArgs :=
  match scene.active_camera with
  | some cam =>
    { proj := cam.proj
      view := Mat4.lookAt cam.eye (cam.eye.add cam.forward) cam.up
      model := model.pos }
  | none => { proj := Mat4.ident, view := Mat4.ident, model := model.pos }

/-- The DrawFlat model-pass closure (flat.rs lines 108-131): computes the
vertex args, updates the `VertexArgs` constant buffer, clones the effect's
static binding set, appends the vertex-args buffer, the mesh's vertex
buffer, the `albedo` sampler and texture and the target's first color
output, then issues one draw. -/
def drawFlatFn : ModelFn := fun enc out effect scene model =>
  let vertex_args := flatVertexArgs scene model
  let vertex_args_buf := effect.const_bufs "VertexArgs"
  let enc := enc.update_constant_buffer vertex_args_buf (UniformData.vertex vertex_args)
  let data := effect.pso_data
  let data := { data with const_bufs := data.const_bufs ++ [vertex_args_buf] }
  let g := model.mesh.geometry
  let data := { data with vertex_bufs := data.vertex_bufs ++ [g.1] }
  let data := { data with samplers := data.samplers ++ [effect.samplers "albedo"] }
  let data := { data with textures := data.textures ++ [model.material.albedo] }
  let data :=
    { data with
      out_colors := data.out_colors ++ ((out.color_buf 0).map ColorBuf.as_output).toList }
  enc.draw g.2 effect.pso data

/-- The complete per-draw binding set the DrawFlat closure hands to its draw
call, as a function of target, effect and model only. -/
def flatData (out : Target) (effect : Effect) (model : Model) : PsoData :=
  { effect.pso_data with
    const_bufs := effect.pso_data.const_bufs ++ [effect.const_bufs "VertexArgs"]
    vertex_bufs := effect.pso_data.vertex_bufs ++ [model.mesh.vbuf]
    samplers := effect.pso_data.samplers ++ [effect.samplers "albedo"]
    textures := effect.pso_data.textures ++ [model.material.albedo]
    out_colors :=
      effect.pso_data.out_colors ++ ((out.color_buf 0).map ColorBuf.as_output).toList }

/-- The command sequence one DrawFlat invocation appends to its encoder. -/
def flatEmit (out : Target) (effect : Effect) (scene : Scene) (model : Model) : List Cmd :=
  [ Cmd.update_constant_buffer (effect.const_bufs "VertexArgs")
      (UniformData.vertex (flatVertexArgs scene model))
  , Cmd.draw model.mesh.slice effect.pso (flatData out effect model) ]

/-- The `VertexArgs` computation of the DrawShaded closure (shaded.rs lines
129-137), identical in content to the flat one. -/
def shadedVertexArgs (scene : Scene) (model : Model) : VertexArgs :=
  match scene.active_camera with
  | some cam =>
    { proj := cam.proj
      view := Mat4.lookAt cam.eye (cam.eye.add cam.forward) cam.up
      model := model.pos }
  | none => { proj := Mat4.ident, view := Mat4.ident, model := model.pos }

/-- The light-collection loop of the DrawShaded closure (shaded.rs lines
144-160): a single walk over `scene.lights()` pushing point lights (padded
position/color, intensity, zero padding) and directional lights into two
vectors; result `(point_lights, directional_lights)`. -/
def shadedLights (ls : List Light) : List SPointLight × List SDirLight :=
  ls.foldl
    (fun acc l =>
      match l with
      | .directional d => (acc.1, acc.2 ++ [⟨d.direction.toList3, d.color.toList3⟩])
      | .point p => (acc.1 ++ [⟨p.center.pad, p.color.pad, p.intensity, [0, 0, 0]⟩], acc.2))
    ([], [])

/-- The `camera_position` global of the DrawShaded closure: the camera eye,
or `[0.0; 3]` without an active camera (shaded.rs line 182). -/
def shadedCameraPosition (scene : Scene) : List ℚ :=
  match scene.active_camera with
  | some cam => cam.eye.toList3
  | none => [0, 0, 0]

/-- The DrawShaded model-pass closure (shaded.rs lines 125-211): clones the
static binding set; updates and binds the `VertexArgs` buffer; collects the
lights and updates and binds the `FragmentArgs`, `PointLights` and
`DirectionalLight` buffers; pushes the ambient-color and camera-position
globals; pushes the seven sampler/texture pairs (roughness, caveat,
metallic, emission, ambient occlusion, albedo, normal); appends the mesh's
vertex buffer and the target's first color output; issues one draw. -/
def drawShadedFn : ModelFn := fun enc out effect scene model =>
  let data := effect.pso_data
  let vertex_args := shadedVertexArgs scene model
  let vertex_args_buf := effect.const_bufs "VertexArgs"
  let enc := enc.update_constant_buffer vertex_args_buf (UniformData.vertex vertex_args)
  let data := { data with const_bufs := data.const_bufs ++ [vertex_args_buf] }
  let point_lights := (shadedLights scene.lights).1
  let directional_lights := (shadedLights scene.lights).2
  let fragment_args : FragmentArgs :=
    ⟨i32_of_usize point_lights.length, i32_of_usize directional_lights.length⟩
  let fragment_args_buf := effect.const_bufs "FragmentArgs"
  let enc := enc.update_constant_buffer fragment_args_buf (UniformData.fragment fragment_args)
  let point_lights_buf := effect.const_bufs "PointLights"
  let enc := enc.update_buffer point_lights_buf (BufferData.points point_lights) 0
  let directional_lights_buf := effect.const_bufs "DirectionalLight"
  let enc := enc.update_buffer directional_lights_buf (BufferData.directionals directional_lights) 0
  let data :=
    { data with
      const_bufs :=
        data.const_bufs ++ [fragment_args_buf, point_lights_buf, directional_lights_buf] }
  let data :=
    { data with
      globals :=
        data.globals ++
          [ UniformValue.F32Vector3 [(0.005 : ℚ), 0.005, 0.005]
          , UniformValue.F32Vector3 (shadedCameraPosition scene) ] }
  let data :=
    { data with
      samplers :=
        data.samplers ++
          [ effect.samplers "sampler_roughness", effect.samplers "sampler_caveat"
          , effect.samplers "sampler_metallic", effect.samplers "sampler_emission"
          , effect.samplers "sampler_ambient_occlusion", effect.samplers "sampler_albedo"
          , effect.samplers "sampler_normal" ]
      textures :=
        data.textures ++
          [ model.material.roughness, model.material.caveat, model.material.metallic
          , model.material.emission, model.material.ambient_occlusion
          , model.material.albedo, model.material.normal ] }
  let g := model.mesh.geometry
  let data := { data with vertex_bufs := data.vertex_bufs ++ [g.1] }
  let data :=
    { data with
      out_colors := data.out_colors ++ ((out.color_buf 0).map ColorBuf.as_output).toList }
  enc.draw g.2 effect.pso data

/-- The complete per-draw binding set the DrawShaded closure hands to its
draw call, as a function of target, effect, scene and model only. -/
def shadedData (out : Target) (effect : Effect) (scene : Scene) (model : Model) : PsoData :=
  { effect.pso_data with
    const_bufs :=
      effect.pso_data.const_bufs ++
        [ effect.const_bufs "VertexArgs", effect.const_bufs "FragmentArgs"
        , effect.const_bufs "PointLights", effect.const_bufs "DirectionalLight" ]
    globals :=
      effect.pso_data.globals ++
        [ UniformValue.F32Vector3 [(0.005 : ℚ), 0.005, 0.005]
        , UniformValue.F32Vector3 (shadedCameraPosition scene) ]
    samplers :=
      effect.pso_data.samplers ++
        [ effect.samplers "sampler_roughness", effect.samplers "sampler_caveat"
        , effect.samplers "sampler_metallic", effect.samplers "sampler_emission"
        , effect.samplers "sampler_ambient_occlusion", effect.samplers "sampler_albedo"
        , effect.samplers "sampler_normal" ]
    textures :=
      effect.pso_data.textures ++
        [ model.material.roughness, model.material.caveat, model.material.metallic
        , model.material.emission, model.material.ambient_occlusion
        , model.material.albedo, model.material.normal ]
    vertex_bufs := effect.pso_data.vertex_bufs ++ [model.mesh.vbuf]
    out_colors :=
      effect.pso_data.out_colors ++ ((out.color_buf 0).map ColorBuf.as_output).toList }

/-- The command sequence one DrawShaded invocation appends to its
encoder. -/
def shadedEmit (out : Target) (effect : Effect) (scene : Scene) (model : Model) : List Cmd :=
  [ Cmd.update_constant_buffer (effect.const_bufs "VertexArgs")
      (UniformData.vertex (shadedVertexArgs scene model))
  , Cmd.update_constant_buffer (effect.const_bufs "FragmentArgs")
      (UniformData.fragment
        ⟨i32_of_usize (shadedLights scene.lights).1.length
        , i32_of_usize (shadedLights scene.lights).2.length⟩)
  , Cmd.update_buffer (effect.const_bufs "PointLights")
      (BufferData.points (shadedLights scene.lights).1) 0
  , Cmd.update_buffer (effect.const_bufs "DirectionalLight")
      (BufferData.directionals (shadedLights scene.lights).2) 0
  , Cmd.draw model.mesh.slice effect.pso (shadedData out effect scene model) ]

end AmethystRenderer

namespace OldRenderer

/-!
Embedding of the older renderer snapshot's clear pass
(`src/renderer/src/pass/clear.rs`).  That snapshot has its own `Target`,
`Encoder` and `Pass` types, kept separate here.
-/

/-- A target of the older snapshot: color buffers and an optional depth
buffer, represented by numeric handles (`target.color_bufs()`,
`target.depth_buf()`). -/
structure Target where
  color_bufs : List ℕ
  depth_buf : Option ℕ
deriving DecidableEq, Repr

/-- A command recorded by the older snapshot's encoder: `clear`,
`clear_depth` or `clear_stencil`. -/
inductive Cmd where
  | clear (buf : ℕ) (value : List ℚ) : Cmd
  | clear_depth (buf : ℕ) (value : ℚ) : Cmd
  | clear_stencil (buf : ℕ) (value : ℕ) : Cmd
deriving DecidableEq, Repr

/-- The older snapshot's encoder: the list of recorded commands. -/
structure Encoder where
  commands : List Cmd
deriving DecidableEq, Repr

/-- Records one command. -/
def Encoder.push (e : Encoder) (c : Cmd) : Encoder :=
  ⟨e.commands ++ [c]⟩

/-- Rust `f32 as u8`: saturating cast — negative values to 0, values above
255 to 255, otherwise truncation. -/
def f32_as_u8 (x : ℚ) : ℕ :=
  (max 0 (min 255 x.floor)).toNat

/-- `ClearTarget`: optional clear color (`[f32; 4]`) and optional clear
depth (clear.rs lines 7-10). -/
structure ClearTarget where
  color_val : Option (List ℚ)
  depth_val : Option ℚ
deriving DecidableEq, Repr

/-- `ClearTarget::with_values(color_val, depth_val)`. -/
def ClearTarget.with_values (color_val : Option (List ℚ)) (depth_val : Option ℚ) : ClearTarget :=
  ⟨color_val, depth_val⟩

/-- `ClearTarget::apply(enc, target, scene, delta)` (clear.rs lines 38-53):
when `color_val` is set, clears every color buffer of the target to it;
when `depth_val` is set and the target has a depth buffer, clears the depth
buffer to it and the stencil buffer to its `u8` cast.  The scene and delta
arguments are unused. -/
def ClearTarget.apply (self : ClearTarget) (enc : Encoder) (target : Target)
    (_scene : Unit) (_delta : ℚ) : Encoder :=
  let enc :=
    match self.color_val with
    | some val => target.color_bufs.foldl (fun e buf => e.push (Cmd.clear buf val)) enc
    | none => enc
  match self.depth_val with
  | some val =>
    match target.depth_buf with
    | some buf => (enc.push (Cmd.clear_depth buf val)).push (Cmd.clear_stencil buf (f32_as_u8 val))
    | none => enc
  | none => enc

end OldRenderer

namespace AmethystRenderer

/-- The invocation events one pass at position `i` contributes under
`Stage::apply`: one event for a basic or simple pass; for a model pass one
draw event per model of the chunks that actually get zipped with the
`jobs_count - 1` split-off encoders (the first `jobs_count - 1` chunks). -/
def passEvents (scene : Scene) (jobs_count : ℕ) (i : ℕ) : Pass → List Event
  | .basic _ => [Event.basic i]
  | .simple _ _ => [Event.simple i]
  | .model _ _ =>
    (((scene.par_chunks_models jobs_count).take (jobs_count - 1)).flatten).map
      fun m => Event.draw i m

/-- The declaration-order trace: the concatenation, in pass-list order, of
each pass's events. -/
def declTrace (scene : Scene) (jobs_count : ℕ) : ℕ → List Pass → List Event
  | _, [] => []
  | i, p :: ps => passEvents scene jobs_count i p ++ declTrace scene jobs_count (i + 1) ps

/-- A target fixture for concrete runs. -/
def targetW : Target := ⟨[⟨10⟩], some 20⟩

/-- An effect fixture for concrete runs. -/
def effectW : Effect := ⟨1, ⟨[], [], [], [], [], []⟩, fun _ => 2, fun _ => 3⟩

/-- An effect-builder fixture that finishes successfully. -/
def ebW : EffectBuilder := ⟨.ok effectW⟩

/-- A basic-pass closure fixture that records nothing. -/
def idBasicFn : BasicFn := fun e _ => e

/-- A simple-pass closure fixture that records nothing. -/
def idSimpleFn : SimpleFn := fun e _ _ _ => e

/-- A model-pass closure fixture that records nothing. -/
def idModelFn : ModelFn := fun e _ _ _ _ => e

/-- A material fixture. -/
def materialW : Material := ⟨1, 2, 3, 4, 5, 6, 7⟩

/-- A model fixture. -/
def modelW : Model := ⟨⟨100, 101⟩, materialW, Mat4.raw [[2]]⟩

/-- A second model fixture. -/
def modelW2 : Model := ⟨⟨102, 103⟩, materialW, Mat4.ident⟩

/-- An empty encoder fixture. -/
def encW : Encoder := ⟨[]⟩

/-- A scene fixture: no camera, no lights, one visible model. -/
def sceneW : Scene := ⟨none, [], [modelW]⟩

/-- A scene fixture with two visible models. -/
def sceneC5 : Scene := ⟨none, [], [modelW, modelW2]⟩

/-- A stage fixture holding a single model pass. -/
def stageC1 : Stage := ⟨true, [Pass.model idModelFn effectW], targetW⟩

/-- A stage fixture holding exactly two model passes and one basic pass. -/
def stageC2 : Stage :=
  ⟨true, [Pass.model idModelFn effectW, Pass.basic idBasicFn, Pass.model idModelFn effectW],
    targetW⟩

/-- A stage fixture holding one model pass. -/
def stageC2x : Stage := ⟨true, [Pass.model idModelFn effectW], targetW⟩

/-- A stage fixture holding one basic pass. -/
def stageC3 : Stage := ⟨true, [Pass.basic idBasicFn], targetW⟩

/-- A stage fixture holding one basic pass and no model pass. -/
def stageC9 : Stage := ⟨true, [Pass.basic idBasicFn], targetW⟩

/-- A target registry fixture binding the name of `targetW`. -/
def targetsW : Targets := [("main", targetW)]

/-- A stage-builder fixture registering a basic, a model and a simple pass
in that order against the registered target name. -/
def sbC5 : StageBuilder :=
  (((StageBuilder.new "main").with_pass (PassBuilder.prep idBasicFn)).with_pass
      (PassBuilder.main ebW idModelFn)).with_pass
    (PassBuilder.post ebW idSimpleFn)

/-- The stage `sbC5` finishes to. -/
def stageC5 : Stage :=
  ⟨true, [Pass.basic idBasicFn, Pass.model idModelFn effectW, Pass.simple idSimpleFn effectW],
    targetW⟩

/-- A stage-builder fixture naming an unregistered target. -/
def sbC4 : StageBuilder := StageBuilder.new "gbuffer"

end AmethystRenderer

namespace AmethystRenderer

/-- The weight sum of `encoders_required` counts exactly the model passes. -/
theorem passWeight_sum :
    ∀ ps : List Pass, (ps.map passWeight).sum = (ps.filter isModelPass).length
  | [] => rfl
  | p :: ps => by
    cases p <;>
      simp [passWeight, isModelPass, List.filter_cons, passWeight_sum ps, Nat.add_comm]

/-- Mapping the first projection over a zip truncates the left list to the
right list's length. -/
theorem zip_map_fst {α β : Type} :
    ∀ (l1 : List α) (l2 : List β), (l1.zip l2).map Prod.fst = l1.take l2.length
  | [], _ => by simp
  | _ :: _, [] => by simp
  | a :: l1, b :: l2 => by simp [zip_map_fst l1 l2]

/-- Flattening a list of mapped lists maps the flattened list. -/
theorem flatten_map_map {α β : Type} (f : α → β) :
    ∀ L : List (List α), (L.map fun l => l.map f).flatten = L.flatten.map f := by
  intro L
  induction L with
  | nil => rfl
  | cons l L ih => simp only [List.map_cons, List.flatten_cons, List.map_append, ih]

/-- The modelled partition produces exactly `n` chunks for `n ≥ 1`. -/
theorem splitInto_length {α : Type} :
    ∀ (n : ℕ) (ms : List α), 1 ≤ n → (splitInto n ms).length = n := by
  intro n
  induction n with
  | zero => intro ms h; exact absurd h (by decide)
  | succ k ih =>
    intro ms _
    cases k with
    | zero => rw [splitInto, if_pos rfl]; rfl
    | succ k2 =>
      rw [splitInto, if_neg (Nat.succ_ne_zero k2)]
      rw [List.length_cons, ih _ (Nat.succ_le_succ (Nat.zero_le k2))]

/-- The modelled partition covers every model exactly once, in order: the
chunks concatenate back to the original model list. -/
theorem splitInto_flatten {α : Type} :
    ∀ (n : ℕ) (ms : List α), 1 ≤ n → (splitInto n ms).flatten = ms := by
  intro n
  induction n with
  | zero => intro ms h; exact absurd h (by decide)
  | succ k ih =>
    intro ms _
    cases k with
    | zero => rw [splitInto, if_pos rfl]; simp
    | succ k2 =>
      rw [splitInto, if_neg (Nat.succ_ne_zero k2)]
      rw [List.flatten_cons, ih _ (Nat.succ_le_succ (Nat.zero_le k2))]
      exact List.take_append_drop _ ms

/-- A successful `collect` relates builders and passes pointwise in order. -/
theorem collectPasses_ok (fac : Factory) (t : Targets) (out : Target) :
    ∀ (pbs : List PassBuilder) (ps : List Pass),
      collectPasses fac t out pbs = .ok ps →
      List.Forall₂ (fun pb p => PassBuilder.finish pb fac t out = Except.ok p) pbs ps := by
  intro pbs
  induction pbs with
  | nil =>
    intro ps h
    simp only [collectPasses] at h
    cases h
    exact List.Forall₂.nil
  | cons pb pbs ih =>
    intro ps h
    simp only [collectPasses] at h
    cases hf : PassBuilder.finish pb fac t out with
    | error err => rw [hf] at h; cases h
    | ok p =>
      rw [hf] at h
      cases hc : collectPasses fac t out pbs with
      | error err => rw [hc] at h; cases h
      | ok ps2 =>
        rw [hc] at h
        cases h
        exact List.Forall₂.cons hf (ih ps2 hc)

end AmethystRenderer

namespace AmethystRenderer

/-- The trace of a successful pass loop is the declaration-order
concatenation of the per-pass event blocks: the stateful encoder
bookkeeping of `Stage::apply` never reorders, drops or duplicates a pass
dispatch. -/
theorem applyPasses_trace (target : Target) (scene : Scene) (jobs_count : ℕ) :
    ∀ (ps : List Pass) (i : ℕ) (encs ret rem : List Encoder) (tr : List Event),
      applyPasses target scene jobs_count ps i encs = .ok (ret, rem, tr) →
      tr = declTrace scene jobs_count i ps := by
  intro ps
  induction ps with
  | nil =>
    intro i encs ret rem tr h
    simp only [applyPasses, Except.ok.injEq, Prod.mk.injEq] at h
    obtain ⟨h1, h2, h3⟩ := h
    subst h3
    rfl
  | cons p ps ih =>
    intro i encs ret rem tr h
    cases p with
    | basic f =>
      cases encs with
      | nil => simp [applyPasses] at h
      | cons e rest =>
        simp only [applyPasses] at h
        cases hrec : applyPasses target scene jobs_count ps (i + 1)
            (Pass.applyBasic f e target :: rest) with
        | error tr2 => rw [hrec] at h; simp [consStep] at h
        | ok trip =>
          obtain ⟨r2, m2, t2⟩ := trip
          rw [hrec] at h
          simp only [consStep, List.nil_append, Except.ok.injEq, Prod.mk.injEq] at h
          obtain ⟨h1, h2, h3⟩ := h
          subst h3
          simp [declTrace, passEvents, ih _ _ _ _ _ hrec]
    | simple f eff =>
      cases encs with
      | nil => simp [applyPasses] at h
      | cons e rest =>
        simp only [applyPasses] at h
        cases hrec : applyPasses target scene jobs_count ps (i + 1)
            (Pass.applySimple f eff e target scene :: rest) with
        | error tr2 => rw [hrec] at h; simp [consStep] at h
        | ok trip =>
          obtain ⟨r2, m2, t2⟩ := trip
          rw [hrec] at h
          simp only [consStep, List.nil_append, Except.ok.injEq, Prod.mk.injEq] at h
          obtain ⟨h1, h2, h3⟩ := h
          subst h3
          simp [declTrace, passEvents, ih _ _ _ _ _ hrec]
    | model f eff =>
      simp only [applyPasses] at h
      split at h
      · exact absurd h (by simp)
      next hchunks =>
        split at h
        next => exact absurd h (by simp)
        next j hj =>
          split at h
          next => exact absurd h (by simp)
          next hlen =>
            cases hrec : applyPasses target scene jobs_count ps (i + 1) (encs.drop j) with
            | error tr2 => rw [hrec] at h; simp [consStep] at h
            | ok trip =>
              obtain ⟨r2, m2, t2⟩ := trip
              rw [hrec] at h
              simp only [consStep, Except.ok.injEq, Prod.mk.injEq] at h
              obtain ⟨h1, h2, h3⟩ := h
              subst h3
              have hj2 : 1 ≤ jobs_count ∧ jobs_count - 1 = j := by
                simpa [usizeSub] using hj
              have hlen2 : (encs.take j).length = j := by
                rw [List.length_take]; omega
              have e1 :
                  (((scene.par_chunks_models jobs_count).zip (encs.take j)).map
                      fun pr => pr.1.map fun m => Event.draw i m) =
                    (((scene.par_chunks_models jobs_count).zip (encs.take j)).map
                        Prod.fst).map fun l => l.map fun m => Event.draw i m := by
                simp [List.map_map, Function.comp]
              rw [ih _ _ _ _ _ hrec]
              simp only [declTrace, passEvents]
              rw [e1, flatten_map_map, zip_map_fst, hlen2, hj2.2]

/-- C1: evaluation at the failing input.  A stage holding one Model pass,
applied with jobs_count = 1 to a scene with exactly one visible model and
one (sufficient, per `encoders_required`) encoder, succeeds with an empty
invocation trace: the pass closure is never invoked for the model, because
the chunk list is zipped against the `jobs_count - 1 = 0` split-off
encoders, contradicting once-per-visible-model dispatch. -/
theorem c1_model_pass_drops_models :
    stageC1.apply [encW] 1 sceneW = .ok ([], [encW], []) ∧ sceneW.models.length = 1 :=
  ⟨rfl, rfl⟩

/-- C2 (amended): for every stage and every jobs_count ≥ 1,
`encoders_required` returns exactly 1 + model-pass-count × (jobs_count − 1);
in particular for jobs_count = 1 it returns 1 regardless of the passes. -/
theorem c2_encoders_required_formula (s : Stage) (jobs_count : ℕ) (h : 1 ≤ jobs_count) :
    s.encoders_required jobs_count = some (1 + s.model_pass_count * (jobs_count - 1)) := by
  have h2 : usizeSub jobs_count 1 = some (jobs_count - 1) := by simp [usizeSub, h]
  rw [Stage.encoders_required, h2, Option.map_some', passWeight_sum]
  exact congrArg some (Nat.add_comm _ _)

/-- C2 witness: a stage with exactly 2 Model passes needs 7 encoders at
jobs_count = 4 and 1 encoder at jobs_count = 1. -/
theorem c2_witness :
    stageC2.encoders_required 4 = some 7 ∧ stageC2.encoders_required 1 = some 1 :=
  ⟨by rw [c2_encoders_required_formula stageC2 4 (by decide)]; decide,
   by rw [c2_encoders_required_formula stageC2 1 (by decide)]; decide⟩

/-- C2 counterexample: at jobs_count = 0 the unguarded `usize` subtraction
makes `encoders_required` panic (modelled as `none`) instead of returning
the claimed value, so the claim quantified over every jobs_count fails. -/
theorem c2_counterexample :
    ¬ ∃ r : ℕ, stageC2x.encoders_required 0 = some r ∧
        (r : ℤ) = 1 + (stageC2x.model_pass_count : ℤ) * ((0 : ℤ) - 1) := by
  rintro ⟨r, hr, -⟩
  simp [stageC2x, Stage.encoders_required, usizeSub] at hr

/-- C3: for an enabled stage, when the supplied encoder slice is shorter
than `encoders_required(jobs_count)`, `Stage::apply` hits the assertion
before dispatching anything: a fatal precondition violation (modelled as
`error`) with an empty invocation trace, so no pass command is recorded. -/
theorem c3_insufficient_encoders_abort (s : Stage) (encs : List Encoder) (jobs_count r : ℕ)
    (scene : Scene) (h1 : s.enabled = true) (h2 : s.encoders_required jobs_count = some r)
    (h3 : encs.length < r) : s.apply encs jobs_count scene = .error [] := by
  have hnle : ¬ r ≤ encs.length := by omega
  simp [Stage.apply, h1, h2, hnle]

/-- C3 witness: one basic pass needs 1 encoder at jobs_count = 1; an empty
encoder slice aborts with nothing recorded. -/
theorem c3_witness : stageC3.apply [] 1 sceneW = .error [] :=
  c3_insufficient_encoders_abort stageC3 [] 1 1 sceneW rfl rfl (by decide)

/-- C4: a stage builder whose target name is absent from the registry
finishes with the `NoSuchTarget` error carrying that name, constructing
nothing. -/
theorem c4_no_such_target (sb : StageBuilder) (fac : Factory) (targets : Targets)
    (h : targets.get sb.target_name = none) :
    sb.finish fac targets = .error (.NoSuchTarget sb.target_name) := by
  simp [StageBuilder.finish, h]

/-- C4 witness: the name of `sbC4` is missing from the empty registry. -/
theorem c4_witness : sbC4.finish () [] = .error (.NoSuchTarget "gbuffer") :=
  c4_no_such_target sbC4 () [] rfl

/-- C5: for a stage produced by a stage builder, a successful enabled
`Stage::apply` produces exactly the declaration-order trace — the
concatenation, in pass-list order, of each pass's invocation events — and
the stage's pass list corresponds, pointwise in order, to the pass builders
registered with `with_pass`. -/
theorem c5_declaration_order (sb : StageBuilder) (fac : Factory) (targets : Targets)
    (stage : Stage) (encs ret rem : List Encoder) (jobs_count : ℕ) (scene : Scene)
    (tr : List Event) (hfin : sb.finish fac targets = .ok stage)
    (hen : stage.enabled = true)
    (happ : stage.apply encs jobs_count scene = .ok (ret, rem, tr)) :
    tr = declTrace scene jobs_count 0 stage.passes ∧
      ∃ out, targets.get sb.target_name = some out ∧
        List.Forall₂ (fun pb p => PassBuilder.finish pb fac targets out = Except.ok p)
          sb.passes stage.passes := by
  constructor
  · simp only [Stage.apply] at happ
    split at happ
    · split at happ
      next => simp at happ
      next r hreq =>
        split at happ
        next => exact applyPasses_trace _ _ _ _ _ _ _ _ _ happ
        next => simp at happ
    next hnen => exact absurd hen hnen
  · simp only [StageBuilder.finish] at hfin
    split at hfin
    next => simp at hfin
    next out hget =>
      split at hfin
      next err hcol => simp at hfin
      next ps2 hcol =>
        injection hfin with hstage
        refine ⟨out, hget, ?_⟩
        rw [← hstage]
        exact collectPasses_ok fac targets out sb.passes ps2 hcol

/-- C5 witness: a builder registering basic, model, simple passes in that
order, finished against the registry and applied at jobs_count = 2 over two
visible models, yields the declaration-order trace. -/
theorem c5_witness :
    [Event.basic 0, Event.draw 1 modelW, Event.simple 2] = declTrace sceneC5 2 0 stageC5.passes ∧
      ∃ out, targetsW.get sbC5.target_name = some out ∧
        List.Forall₂ (fun pb p => PassBuilder.finish pb () targetsW out = Except.ok p)
          sbC5.passes stageC5.passes :=
  c5_declaration_order sbC5 () targetsW stageC5 [encW, encW] [encW] [encW] 2 sceneC5
    [Event.basic 0, Event.draw 1 modelW, Event.simple 2] rfl rfl rfl

/-- C6: a disabled stage applies zero passes: it records no invocation, it
touches no encoder, and it hands the encoder slice back unchanged (so the
target's buffers keep their prior-frame contents). -/
theorem c6_disabled_stage_inert (s : Stage) (encs : List Encoder) (jobs_count : ℕ)
    (scene : Scene) (h : s.enabled = false) :
    s.apply encs jobs_count scene = .ok ([], encs, []) := by
  simp [Stage.apply, h]

/-- C6 witness: toggling an enabled stage disables it and its apply is
inert. -/
theorem c6_witness : stageC3.toggle_enabled.apply [encW] 1 sceneW = .ok ([], [encW], []) :=
  c6_disabled_stage_inert stageC3.toggle_enabled [encW] 1 sceneW rfl

/-- C9: the unguarded `jobs_count - 1` makes `encoders_required` (and hence
an enabled `Stage::apply`, which evaluates it in its assertion) underflow
and panic at jobs_count = 0 — even for a stage with no Model passes — while
for every jobs_count ≥ 1 the subtraction is well-defined. -/
theorem c9_jobs_zero_underflow :
    (∀ s : Stage, s.encoders_required 0 = none) ∧
      (∀ (s : Stage) (jobs_count : ℕ), 1 ≤ jobs_count →
        (s.encoders_required jobs_count).isSome = true) ∧
      (∀ (s : Stage) (encs : List Encoder) (scene : Scene), s.enabled = true →
        s.apply encs 0 scene = .error []) := by
  refine ⟨fun s => ?_, fun s jobs_count h => ?_, fun s encs scene h => ?_⟩
  · simp [Stage.encoders_required, usizeSub]
  · simp [Stage.encoders_required, usizeSub, h]
  · simp [Stage.apply, h, Stage.encoders_required, usizeSub]

/-- C9 witness: a stage with no Model passes still panics at jobs_count = 0,
and is well-defined at jobs_count = 1. -/
theorem c9_witness :
    stageC9.encoders_required 0 = none ∧ (stageC9.encoders_required 1).isSome = true ∧
      stageC9.apply [encW] 0 sceneW = .error [] :=
  ⟨c9_jobs_zero_underflow.1 stageC9, c9_jobs_zero_underflow.2.1 stageC9 1 (by decide),
    c9_jobs_zero_underflow.2.2 stageC9 [encW] sceneW rfl⟩

/-- One DrawFlat invocation appends exactly its emission — a function of
target, effect, scene and model only — after the encoder's prior
contents. -/
theorem drawFlat_emits (enc : Encoder) (out : Target) (eff : Effect) (scene : Scene)
    (m : Model) :
    (drawFlatFn enc out eff scene m).commands = enc.commands ++ flatEmit out eff scene m := by
  simp [drawFlatFn, flatEmit, flatData, Encoder.update_constant_buffer, Encoder.draw,
    Mesh.geometry]

/-- One DrawShaded invocation appends exactly its emission — a function of
target, effect, scene and model only — after the encoder's prior
contents. -/
theorem drawShaded_emits (enc : Encoder) (out : Target) (eff : Effect) (scene : Scene)
    (m : Model) :
    (drawShadedFn enc out eff scene m).commands = enc.commands ++ shadedEmit out eff scene m := by
  simp [drawShadedFn, shadedEmit, shadedData, Encoder.update_constant_buffer,
    Encoder.update_buffer, Encoder.draw, Mesh.geometry]

/-- C7: with no active camera, both model-pass draw closures substitute the
identity matrix for projection and view while keeping the model's own world
transform, and still issue their draw (DrawFlat records the uniform update
and the draw; DrawShaded records its uniform and light-buffer updates and
the draw). -/
theorem c7_no_camera_identity_transforms (enc : Encoder) (out : Target) (eff : Effect)
    (scene : Scene) (m : Model) (h : scene.active_camera = none) :
    flatVertexArgs scene m = ⟨Mat4.ident, Mat4.ident, m.pos⟩ ∧
      shadedVertexArgs scene m = ⟨Mat4.ident, Mat4.ident, m.pos⟩ ∧
      drawFlatFn enc out eff scene m =
        ⟨enc.commands ++
          [ Cmd.update_constant_buffer (eff.const_bufs "VertexArgs")
              (UniformData.vertex ⟨Mat4.ident, Mat4.ident, m.pos⟩)
          , Cmd.draw m.mesh.slice eff.pso (flatData out eff m) ]⟩ ∧
      drawShadedFn enc out eff scene m =
        ⟨enc.commands ++
          [ Cmd.update_constant_buffer (eff.const_bufs "VertexArgs")
              (UniformData.vertex ⟨Mat4.ident, Mat4.ident, m.pos⟩)
          , Cmd.update_constant_buffer (eff.const_bufs "FragmentArgs")
              (UniformData.fragment
                ⟨i32_of_usize (shadedLights scene.lights).1.length
                , i32_of_usize (shadedLights scene.lights).2.length⟩)
          , Cmd.update_buffer (eff.const_bufs "PointLights")
              (BufferData.points (shadedLights scene.lights).1) 0
          , Cmd.update_buffer (eff.const_bufs "DirectionalLight")
              (BufferData.directionals (shadedLights scene.lights).2) 0
          , Cmd.draw m.mesh.slice eff.pso (shadedData out eff scene m) ]⟩ := by
  have hf : flatVertexArgs scene m = ⟨Mat4.ident, Mat4.ident, m.pos⟩ := by
    simp [flatVertexArgs, h]
  have hs : shadedVertexArgs scene m = ⟨Mat4.ident, Mat4.ident, m.pos⟩ := by
    simp [shadedVertexArgs, h]
  refine ⟨hf, hs, ?_, ?_⟩
  · have h2 := drawFlat_emits enc out eff scene m
    simp only [flatEmit, hf] at h2
    exact congrArg Encoder.mk h2
  · have h2 := drawShaded_emits enc out eff scene m
    simp only [shadedEmit, hs] at h2
    exact congrArg Encoder.mk h2

/-- C7 witness: concrete run with no camera. -/
theorem c7_witness :
    flatVertexArgs sceneW modelW = ⟨Mat4.ident, Mat4.ident, modelW.pos⟩ ∧
      shadedVertexArgs sceneW modelW = ⟨Mat4.ident, Mat4.ident, modelW.pos⟩ ∧
      drawFlatFn encW targetW effectW sceneW modelW =
        ⟨encW.commands ++
          [ Cmd.update_constant_buffer (effectW.const_bufs "VertexArgs")
              (UniformData.vertex ⟨Mat4.ident, Mat4.ident, modelW.pos⟩)
          , Cmd.draw modelW.mesh.slice effectW.pso (flatData targetW effectW modelW) ]⟩ ∧
      drawShadedFn encW targetW effectW sceneW modelW =
        ⟨encW.commands ++
          [ Cmd.update_constant_buffer (effectW.const_bufs "VertexArgs")
              (UniformData.vertex ⟨Mat4.ident, Mat4.ident, modelW.pos⟩)
          , Cmd.update_constant_buffer (effectW.const_bufs "FragmentArgs")
              (UniformData.fragment
                ⟨i32_of_usize (shadedLights sceneW.lights).1.length
                , i32_of_usize (shadedLights sceneW.lights).2.length⟩)
          , Cmd.update_buffer (effectW.const_bufs "PointLights")
              (BufferData.points (shadedLights sceneW.lights).1) 0
          , Cmd.update_buffer (effectW.const_bufs "DirectionalLight")
              (BufferData.directionals (shadedLights sceneW.lights).2) 0
          , Cmd.draw modelW.mesh.slice effectW.pso (shadedData targetW effectW sceneW modelW) ]⟩ :=
  c7_no_camera_identity_transforms encW targetW effectW sceneW modelW rfl

/-- C8: the commands a model-pass closure emits are a deterministic function
of (target, effect, scene, model) alone: each invocation appends exactly
its emission, and two invocations with identical inputs append identical
command suffixes — identical uniform updates and identical draw parameters
— regardless of the encoder's prior state. -/
theorem c8_deterministic_emission (out : Target) (eff : Effect) (scene : Scene) (m : Model)
    (enc enc2 : Encoder) :
    (drawFlatFn enc out eff scene m).commands = enc.commands ++ flatEmit out eff scene m ∧
      (drawShadedFn enc out eff scene m).commands =
        enc.commands ++ shadedEmit out eff scene m ∧
      (drawFlatFn enc out eff scene m).commands.drop enc.commands.length =
        (drawFlatFn enc2 out eff scene m).commands.drop enc2.commands.length ∧
      (drawShadedFn enc out eff scene m).commands.drop enc.commands.length =
        (drawShadedFn enc2 out eff scene m).commands.drop enc2.commands.length := by
  refine ⟨drawFlat_emits enc out eff scene m, drawShaded_emits enc out eff scene m, ?_, ?_⟩
  · rw [drawFlat_emits enc out eff scene m, drawFlat_emits enc2 out eff scene m,
      List.drop_left, List.drop_left]
  · rw [drawShaded_emits enc out eff scene m, drawShaded_emits enc2 out eff scene m,
      List.drop_left, List.drop_left]

end AmethystRenderer

namespace OldRenderer

/-- Folding clear pushes over the color buffers appends one clear per
buffer, in order. -/
theorem foldl_push_commands (l : List ℕ) (f : ℕ → Cmd) (e : Encoder) :
    (l.foldl (fun acc buf => Encoder.mk (acc.commands ++ [f buf])) e).commands =
      e.commands ++ l.map f := by
  induction l generalizing e with
  | nil => simp
  | cons b l ih =>
    simp only [List.foldl_cons, List.map_cons]
    rw [ih]
    simp

/-- C10: `ClearTarget::apply` records exactly the clears selected by its
`Some`-valued fields: a set color value clears every color buffer of the
target to it; a set depth value, when the target has a depth buffer, clears
the depth buffer to it and the stencil buffer to its `u8` cast; a `None`
field contributes nothing, and a set depth value on a depth-less target
contributes nothing. -/
theorem c10_clear_target_exact (c : ClearTarget) (enc : Encoder) (t : Target) (s : Unit)
    (d : ℚ) :
    (c.apply enc t s d).commands =
      enc.commands ++
        (match c.color_val with
          | some v => t.color_bufs.map fun b => Cmd.clear b v
          | none => []) ++
        (match c.depth_val, t.depth_buf with
          | some dv, some b => [Cmd.clear_depth b dv, Cmd.clear_stencil b (f32_as_u8 dv)]
          | _, _ => []) := by
  rcases hc : c.color_val with _ | v <;> rcases hd : c.depth_val with _ | dv <;>
    rcases ht : t.depth_buf with _ | b <;>
      simp [ClearTarget.apply, hc, hd, ht, foldl_push_commands, Encoder.push,
        List.append_assoc]

end OldRenderer
